import Mathlib

/-!
Verification of the Ethan bipedal-robot control core against its
specification.  The definitions below are shallow embeddings of
`src/control/gait_generator.py`, `src/control/posture_controller.py` and
`src/control/inverse_kinematics.py`: discrete controller state is modelled
with exact rational arithmetic, the analytic IK solver with real arithmetic.
Definitions come first, then the theorems about them.
-/

namespace Ethan

/-! ### Definitions: numerics and the gait state machine (`gait_generator.py`) -/

/-- numpy-style clip: `np.clip(x, lo, hi)` is `min (max x lo) hi`. -/
def npClip {α : Type*} [LinearOrder α] (x lo hi : α) : α := min (max x lo) hi

/-- `GaitPhase` enum: exactly one phase is active. -/
inductive GaitPhase where
  | DOUBLE_SUPPORT
  | LEFT_SWING
  | RIGHT_SWING
deriving DecidableEq, Repr

/-- `GaitParams` dataclass, with the source's default values. -/
structure GaitParams where
  step_height : ℚ := 2/100
  step_length : ℚ := 0
  step_period : ℚ := 2
  double_support_ratio : ℚ := 3/10
  com_shift_y : ℚ := 2/100
  turn_rate : ℚ := 0
  foot_x_offset : ℚ := 0
  foot_z_stand : ℚ := -22/100
deriving DecidableEq, Repr

/-- The mutable state of a `GaitGenerator`: its parameter block, the phase
machine fields, and the two cached phase durations that `__init__` computes
via `_update_durations`. -/
structure GaitGenerator where
  params : GaitParams
  phase : GaitPhase
  phase_time : ℚ
  total_time : ℚ
  step_count : ℕ
  double_dur : ℚ
  swing_dur : ℚ
deriving DecidableEq, Repr

/-- `GaitGenerator.__init__`: starts in `DOUBLE_SUPPORT` with zeroed timers
and durations computed from the parameters (`_update_durations`). -/
def GaitGenerator.init (p : GaitParams) : GaitGenerator where
  params := p
  phase := .DOUBLE_SUPPORT
  phase_time := 0
  total_time := 0
  step_count := 0
  double_dur := p.step_period * p.double_support_ratio
  swing_dur := p.step_period * (1 - p.double_support_ratio)

/-- `GaitGenerator.reset`: back to `DOUBLE_SUPPORT`, timers and step counter
zeroed; parameters and cached durations untouched. -/
def GaitGenerator.reset (g : GaitGenerator) : GaitGenerator :=
  { g with phase := .DOUBLE_SUPPORT, phase_time := 0, total_time := 0, step_count := 0 }

/-- `GaitGenerator.set_velocity`: mutates `step_length` and `turn_rate`. -/
def GaitGenerator.set_velocity (g : GaitGenerator) (forward turn : ℚ) : GaitGenerator :=
  { g with params := { g.params with step_length := forward, turn_rate := turn } }

/-- `GaitGenerator.stop`: zeroes `step_length`, `turn_rate` and `step_height`. -/
def GaitGenerator.stop (g : GaitGenerator) : GaitGenerator :=
  { g with params := { g.params with step_length := 0, turn_rate := 0, step_height := 0 } }

/-- Mutating fields of the owned `GaitParams` after construction (the
dataclass is plain mutable data) amounts to replacing the parameter block. -/
def GaitGenerator.setParams (g : GaitGenerator) (p : GaitParams) : GaitGenerator :=
  { g with params := p }

/-- `GaitGenerator._check_transition`: at most one phase switch, driven by
`phase_time` against the cached durations. -/
def GaitGenerator.check_transition (g : GaitGenerator) : GaitGenerator :=
  match g.phase with
  | .DOUBLE_SUPPORT =>
      if g.double_dur ≤ g.phase_time then
        { g with phase_time := 0,
                 phase := if g.step_count % 2 = 0 then .LEFT_SWING else .RIGHT_SWING }
      else g
  | _ =>
      if g.swing_dur ≤ g.phase_time then
        { g with phase_time := 0, phase := .DOUBLE_SUPPORT, step_count := g.step_count + 1 }
      else g

/-- The state part of `GaitGenerator.update(dt)`: advance both clocks, then
run the transition check. -/
def GaitGenerator.update (g : GaitGenerator) (dt : ℚ) : GaitGenerator :=
  GaitGenerator.check_transition
    { g with phase_time := g.phase_time + dt, total_time := g.total_time + dt }

/-- A sequence of `update` calls. -/
def GaitGenerator.run (g : GaitGenerator) (dts : List ℚ) : GaitGenerator :=
  dts.foldl GaitGenerator.update g

/-- The phase-machine projection of the state: phase, the two clocks and the
step counter. -/
def GaitGenerator.fsm (g : GaitGenerator) : GaitPhase × ℚ × ℚ × ℕ :=
  (g.phase, g.phase_time, g.total_time, g.step_count)

/-- The walking scenario of the spec: default parameters
(`step_period = 2.0`, `double_support_ratio = 0.3`), `dt = 0.01`, state after
`n` control ticks. -/
def gaitTick (n : ℕ) : GaitGenerator :=
  GaitGenerator.run (GaitGenerator.init {}) (List.replicate n (1/100))

/-- The swing entry recorded by one update: `[true]` when the step enters
`LEFT_SWING` from `DOUBLE_SUPPORT`, `[false]` when it enters `RIGHT_SWING`,
`[]` otherwise. -/
def swingEntryOf (gBefore gAfter : GaitGenerator) : List Bool :=
  if gBefore.phase = GaitPhase.DOUBLE_SUPPORT ∧ gAfter.phase = GaitPhase.LEFT_SWING then
    [true]
  else if gBefore.phase = GaitPhase.DOUBLE_SUPPORT ∧ gAfter.phase = GaitPhase.RIGHT_SWING then
    [false]
  else []

/-- The sides of the swing phases entered along a sequence of updates
(`true` = left swing). -/
def swingEntries (g : GaitGenerator) : List ℚ → List Bool
  | [] => []
  | dt :: rest => swingEntryOf g (g.update dt) ++ swingEntries (g.update dt) rest

/-- `alternatesFrom b l` holds when `l` is `b, !b, b, …`. -/
def alternatesFrom : Bool → List Bool → Bool
  | _, [] => true
  | b, x :: xs => (x == b) && alternatesFrom (!b) xs

/-- Parity invariant: the step counter's parity determines both the current
swing side (if any) and the side of the next swing entry `b`. -/
def sideInv (g : GaitGenerator) (b : Bool) : Prop :=
  (g.phase = GaitPhase.DOUBLE_SUPPORT → (g.step_count % 2 = 0 ↔ b = true)) ∧
  (g.phase = GaitPhase.LEFT_SWING → g.step_count % 2 = 0 ∧ b = false) ∧
  (g.phase = GaitPhase.RIGHT_SWING → g.step_count % 2 = 1 ∧ b = true)

/-- `PIDGains` dataclass. -/
structure PIDGains where
  kp : ℚ := 1
  ki : ℚ := 0
  kd : ℚ := 1/10
deriving DecidableEq, Repr

/-- State of `PostureController`: gains, targets, per-axis integral and
previous-error memory, and the integral clamp bound. -/
structure PostureController where
  roll_gains : PIDGains
  pitch_gains : PIDGains
  target_roll : ℚ
  target_pitch : ℚ
  _ri : ℚ
  _pi : ℚ
  _re : ℚ
  _pe : ℚ
  integral_limit : ℚ
deriving DecidableEq, Repr

/-- `PostureController.__init__` (optional gains default to the conservative
`kp=0.3, ki=0.01, kd=0.05`; `integral_limit = 5.0`). -/
def PostureController.init (roll_gains pitch_gains : Option PIDGains)
    (target_roll target_pitch : ℚ) : PostureController where
  roll_gains := roll_gains.getD { kp := 3/10, ki := 1/100, kd := 5/100 }
  pitch_gains := pitch_gains.getD { kp := 3/10, ki := 1/100, kd := 5/100 }
  target_roll := target_roll
  target_pitch := target_pitch
  _ri := 0
  _pi := 0
  _re := 0
  _pe := 0
  integral_limit := 5

/-- `PostureController.update(roll, pitch, dt)`: returns the new state and
`(roll_correction, pitch_correction)`. -/
def PostureController.update (c : PostureController) (roll pitch dt : ℚ) :
    PostureController × ℚ × ℚ :=
  let re := c.target_roll - roll
  let pe := c.target_pitch - pitch
  let riNew := npClip (c._ri + re * dt) (-c.integral_limit) c.integral_limit
  let piNew := npClip (c._pi + pe * dt) (-c.integral_limit) c.integral_limit
  let rd := if 0 < dt then (re - c._re) / dt else 0
  let pd := if 0 < dt then (pe - c._pe) / dt else 0
  let rc := c.roll_gains.kp * re + c.roll_gains.ki * riNew + c.roll_gains.kd * rd
  let pc := c.pitch_gains.kp * pe + c.pitch_gains.ki * piNew + c.pitch_gains.kd * pd
  ({ c with _ri := riNew, _pi := piNew, _re := re, _pe := pe }, rc, pc)

/-- A sequence of posture updates (inputs `(roll, pitch, dt)`), keeping the
state. -/
def PostureController.run (c : PostureController) (inputs : List (ℚ × ℚ × ℚ)) :
    PostureController :=
  inputs.foldl (fun c i => (c.update i.1 i.2.1 i.2.2).1) c

/-- `PostureController.compute_joint_corrections`: the fixed linear policy
mapping `(roll_corr, pitch_corr)` to joint deltas. -/
def PostureController.compute_joint_corrections (roll_corr pitch_corr : ℚ) :
    List (String × ℚ) :=
  [("left_hip_roll", roll_corr * (3/10)),
   ("right_hip_roll", roll_corr * (-3/10)),
   ("left_hip_pitch", pitch_corr * (3/10)),
   ("right_hip_pitch", pitch_corr * (3/10)),
   ("left_ankle_pitch", pitch_corr * (-2/10)),
   ("right_ankle_pitch", pitch_corr * (-2/10))]

/-- State of `CenterOfMassController`. -/
structure CenterOfMassController where
  target : ℚ
  gains : PIDGains
  _i : ℚ
  _e : ℚ
deriving DecidableEq, Repr

/-- `CenterOfMassController.__init__` (gains `kp=8, ki=0.5, kd=1`). -/
def CenterOfMassController.init (target_height : ℚ) : CenterOfMassController where
  target := target_height
  gains := { kp := 8, ki := 1/2, kd := 1 }
  _i := 0
  _e := 0

/-- `CenterOfMassController.update(height, dt)`: returns the new state and the
height correction; the integral is clamped to ±0.05. -/
def CenterOfMassController.update (c : CenterOfMassController) (height dt : ℚ) :
    CenterOfMassController × ℚ :=
  let e := c.target - height
  let iNew := npClip (c._i + e * dt) (-(5/100)) (5/100)
  let d := if 0 < dt then (e - c._e) / dt else 0
  ({ c with _i := iNew, _e := e }, c.gains.kp * e + c.gains.ki * iNew + c.gains.kd * d)

/-- A sequence of height updates (inputs `(height, dt)`). -/
def CenterOfMassController.run (c : CenterOfMassController) (inputs : List (ℚ × ℚ)) :
    CenterOfMassController :=
  inputs.foldl (fun c i => (c.update i.1 i.2).1) c

/-- `CenterOfMassController.compute_leg_extension`: linear map from height
correction to knee/hip deltas. -/
def CenterOfMassController.compute_leg_extension (h_corr : ℚ) : List (String × ℚ) :=
  [("left_knee", -h_corr * 150), ("right_knee", -h_corr * 150),
   ("left_hip_pitch", h_corr * 75), ("right_hip_pitch", h_corr * 75)]

/-- Python's `dict.get(k, d)` over an association list. -/
def dictGet (m : List (String × ℚ)) (k : String) (d : ℚ) : ℚ := (m.lookup k).getD d

/-- The joints of the standing controller's default base pose. -/
def standingBaseJoints : List String :=
  ["head_pitch", "left_hip_roll", "left_hip_pitch", "left_knee", "left_ankle_pitch",
   "right_hip_roll", "right_hip_pitch", "right_knee", "right_ankle_pitch"]

/-- `StandingController`: posture + height controllers, a base pose and the
per-joint per-tick correction bound (3°). -/
structure StandingController where
  posture : PostureController
  com : CenterOfMassController
  base_pose : List (String × ℚ)
  max_correction : ℚ
deriving DecidableEq, Repr

/-- `StandingController.__init__`: zero base pose over the nine joints,
`max_correction = 3.0`. -/
def StandingController.init (target_height target_roll target_pitch : ℚ) :
    StandingController where
  posture := PostureController.init none none target_roll target_pitch
  com := CenterOfMassController.init target_height
  base_pose := standingBaseJoints.map (fun j => (j, 0))
  max_correction := 3

/-- `StandingController.compute_control(height, roll, pitch, dt)`: posture and
height corrections merged over the base pose with the per-joint clamp. -/
def StandingController.compute_control (s : StandingController)
    (height roll pitch dt : ℚ) : StandingController × List (String × ℚ) :=
  let pu := s.posture.update roll pitch dt
  let p_corr := PostureController.compute_joint_corrections pu.2.1 pu.2.2
  let cu := s.com.update height dt
  let h_corr := CenterOfMassController.compute_leg_extension cu.2
  let out := s.base_pose.map (fun jb =>
    (jb.1, jb.2 + npClip (dictGet p_corr jb.1 0 + dictGet h_corr jb.1 0)
        (-s.max_correction) s.max_correction))
  ({ s with posture := pu.1, com := cu.1 }, out)

/-- Run the standing controller over the given `dt` sequence, feeding back
measured state equal to its own targets every tick; collects the per-tick
joint outputs. -/
def StandingController.runAtTargets (s : StandingController) :
    List ℚ → List (List (String × ℚ))
  | [] => []
  | dt :: rest =>
    (s.compute_control s.com.target s.posture.target_roll s.posture.target_pitch dt).2 ::
      StandingController.runAtTargets
        (s.compute_control s.com.target s.posture.target_roll s.posture.target_pitch dt).1 rest

/-- The gait+posture merge used by the locomotion tests: each gait joint gets
the posture correction for it, clamped to ±2°, added. -/
def composeGaitPosture (gait pid_corr : List (String × ℚ)) : List (String × ℚ) :=
  gait.map (fun jv => (jv.1, jv.2 + npClip (dictGet pid_corr jv.1 0) (-2) 2))

/-! ### Definitions: the IK solver (`inverse_kinematics.py`), over the reals -/

noncomputable section

/-- `np.deg2rad`. -/
def deg2rad (x : ℝ) : ℝ := x * Real.pi / 180

/-- `np.rad2deg`. -/
def rad2deg (x : ℝ) : ℝ := x * 180 / Real.pi

/-- `np.arctan2 y x`: the argument of the complex number `x + y i`. -/
def atan2 (y x : ℝ) : ℝ := Complex.arg ⟨x, y⟩

/-- `LegGeometry` dataclass with the URDF default values. -/
structure LegGeometry where
  thigh_length : ℝ := 12/100
  calf_length : ℝ := 1/10
  hip_offset_y : ℝ := 7/100
  hip_offset_z : ℝ := 75/1000

/-- The result dictionary of `solve_leg_ik` (angles in degrees). -/
structure IKSol where
  hip_pitch : ℝ
  knee : ℝ
  ankle_pitch : ℝ

/-- The effective hip-to-ankle distance after the two reachability clamps of
`solve_leg_ik`: distances beyond `thigh+calf` are cut to `thigh+calf − 1e-6`,
then anything below `|thigh−calf| + 1e-6` is raised to that value. -/
def effDist (target_x target_z : ℝ) (geom : LegGeometry) : ℝ :=
  let d0 := Real.sqrt (target_x^2 + target_z^2)
  let max_reach := geom.thigh_length + geom.calf_length
  let min_reach := |geom.thigh_length - geom.calf_length|
  let d1 := if max_reach < d0 then max_reach - 1/1000000 else d0
  if d1 < min_reach + 1/1000000 then min_reach + 1/1000000 else d1

/-- The knee angle (radians) of `solve_leg_ik` at effective distance `d`:
law of cosines, `0 = fully extended`. -/
def kneeRad (d : ℝ) (geom : LegGeometry) : ℝ :=
  Real.pi - Real.arccos (npClip
    ((geom.thigh_length^2 + geom.calf_length^2 - d^2) /
      (2 * geom.thigh_length * geom.calf_length)) (-1) 1)

/-- The base angle β (radians) of `solve_leg_ik` at effective distance `d`. -/
def betaRad (d : ℝ) (geom : LegGeometry) : ℝ :=
  Real.arccos (npClip
    ((geom.thigh_length^2 + d^2 - geom.calf_length^2) /
      (2 * geom.thigh_length * d)) (-1) 1)

/-- The hip-pitch angle (radians) of `solve_leg_ik`: direction angle
`α = atan2(−x, −z)` minus the base angle. -/
def hipRad (target_x target_z : ℝ) (geom : LegGeometry) : ℝ :=
  atan2 (-target_x) (-target_z) - betaRad (effDist target_x target_z geom) geom

/-- The body of `solve_leg_ik` (it always reaches its final `return`). -/
def solve_leg_ikCore (target_x target_z : ℝ) (geom : LegGeometry) : IKSol where
  hip_pitch := rad2deg (hipRad target_x target_z geom)
  knee := rad2deg (kneeRad (effDist target_x target_z geom) geom)
  ankle_pitch := rad2deg (-(hipRad target_x target_z geom +
    kneeRad (effDist target_x target_z geom) geom))

/-- `solve_leg_ik`: declared `Optional` in the source but never `None`. -/
def solve_leg_ik (target_x target_z : ℝ) (geom : LegGeometry) : Option IKSol :=
  some (solve_leg_ikCore target_x target_z geom)

/-- Planar 2-link forward kinematics for the conventions of `solve_leg_ik`
(degrees in, hip at the origin, `x` forward, `z` negative below the hip,
knee angle `0` = fully extended): the resulting ankle position. -/
def fkAnkle (geom : LegGeometry) (hip_pitch_deg knee_deg : ℝ) : ℝ × ℝ :=
  (-(geom.thigh_length * Real.sin (deg2rad hip_pitch_deg)
      + geom.calf_length * Real.sin (deg2rad hip_pitch_deg + deg2rad knee_deg)),
   -(geom.thigh_length * Real.cos (deg2rad hip_pitch_deg)
      + geom.calf_length * Real.cos (deg2rad hip_pitch_deg + deg2rad knee_deg)))

end

/-! ### Theorems -/

theorem npClip_eq_self {α : Type*} [LinearOrder α] {x lo hi : α}
    (h1 : lo ≤ x) (h2 : x ≤ hi) : npClip x lo hi = x := by
  simp [npClip, max_eq_left h1, min_eq_left h2]

theorem npClip_mem {α : Type*} [LinearOrder α] (x lo hi : α) (h : lo ≤ hi) :
    lo ≤ npClip x lo hi ∧ npClip x lo hi ≤ hi := by
  constructor
  · exact le_min (le_max_right x lo) h
  · exact min_le_right _ _

theorem update_ds_trans (g : GaitGenerator) (dt : ℚ)
    (hph : g.phase = GaitPhase.DOUBLE_SUPPORT) (hc : g.double_dur ≤ g.phase_time + dt) :
    (g.update dt).phase = (if g.step_count % 2 = 0 then GaitPhase.LEFT_SWING
        else GaitPhase.RIGHT_SWING) ∧
    (g.update dt).phase_time = 0 ∧ (g.update dt).step_count = g.step_count := by
  simp [GaitGenerator.update, GaitGenerator.check_transition, hph, hc]

theorem update_ds_stay (g : GaitGenerator) (dt : ℚ)
    (hph : g.phase = GaitPhase.DOUBLE_SUPPORT) (hc : ¬ g.double_dur ≤ g.phase_time + dt) :
    (g.update dt).phase = GaitPhase.DOUBLE_SUPPORT ∧
    (g.update dt).phase_time = g.phase_time + dt ∧
    (g.update dt).step_count = g.step_count := by
  simp [GaitGenerator.update, GaitGenerator.check_transition, hph, hc]

theorem update_swing_trans (g : GaitGenerator) (dt : ℚ)
    (hph : g.phase ≠ GaitPhase.DOUBLE_SUPPORT) (hc : g.swing_dur ≤ g.phase_time + dt) :
    (g.update dt).phase = GaitPhase.DOUBLE_SUPPORT ∧
    (g.update dt).phase_time = 0 ∧ (g.update dt).step_count = g.step_count + 1 := by
  cases hp : g.phase <;> [exact absurd hp hph; skip; skip] <;>
    simp [GaitGenerator.update, GaitGenerator.check_transition, hp, hc]

theorem update_swing_stay (g : GaitGenerator) (dt : ℚ)
    (hph : g.phase ≠ GaitPhase.DOUBLE_SUPPORT) (hc : ¬ g.swing_dur ≤ g.phase_time + dt) :
    (g.update dt).phase = g.phase ∧
    (g.update dt).phase_time = g.phase_time + dt ∧
    (g.update dt).step_count = g.step_count := by
  cases hp : g.phase <;> [exact absurd hp hph; skip; skip] <;>
    simp [GaitGenerator.update, GaitGenerator.check_transition, hp, hc]

/-- C2: the transition rule of the gait state machine.  For a generator whose
cached durations carry the constructed values
(`double_support_duration = step_period * double_support_ratio`,
`swing_duration = step_period * (1 - double_support_ratio)`), one `update dt`
behaves exactly as specified: in `DOUBLE_SUPPORT`, once the phase clock
reaches the double-support duration the phase becomes `LEFT_SWING` for even
`step_count` and `RIGHT_SWING` otherwise with the phase clock reset and the
step counter kept; in a swing phase, once the clock reaches the swing
duration the phase returns to `DOUBLE_SUPPORT` with the clock reset and the
step counter incremented by exactly one; in all other situations no
transition occurs (the phase and counter are unchanged and the clock just
advances by `dt`). -/
theorem gait_update_transition_rule (g : GaitGenerator) (dt : ℚ)
    (hdd : g.double_dur = g.params.step_period * g.params.double_support_ratio)
    (hsd : g.swing_dur = g.params.step_period * (1 - g.params.double_support_ratio)) :
    (g.phase = GaitPhase.DOUBLE_SUPPORT →
      (g.params.step_period * g.params.double_support_ratio ≤ g.phase_time + dt →
        (g.update dt).phase = (if g.step_count % 2 = 0 then GaitPhase.LEFT_SWING
            else GaitPhase.RIGHT_SWING) ∧
        (g.update dt).phase_time = 0 ∧ (g.update dt).step_count = g.step_count) ∧
      (g.phase_time + dt < g.params.step_period * g.params.double_support_ratio →
        (g.update dt).phase = g.phase ∧ (g.update dt).phase_time = g.phase_time + dt ∧
        (g.update dt).step_count = g.step_count)) ∧
    ((g.phase = GaitPhase.LEFT_SWING ∨ g.phase = GaitPhase.RIGHT_SWING) →
      (g.params.step_period * (1 - g.params.double_support_ratio) ≤ g.phase_time + dt →
        (g.update dt).phase = GaitPhase.DOUBLE_SUPPORT ∧ (g.update dt).phase_time = 0 ∧
        (g.update dt).step_count = g.step_count + 1) ∧
      (g.phase_time + dt < g.params.step_period * (1 - g.params.double_support_ratio) →
        (g.update dt).phase = g.phase ∧ (g.update dt).phase_time = g.phase_time + dt ∧
        (g.update dt).step_count = g.step_count)) := by
  rw [← hdd, ← hsd]
  refine ⟨fun hph => ⟨fun hge => ?_, fun hlt => ?_⟩,
         fun hsw => ⟨fun hge => ?_, fun hlt => ?_⟩⟩
  · simp [GaitGenerator.update, GaitGenerator.check_transition, hph, hge]
  · simp [GaitGenerator.update, GaitGenerator.check_transition, hph, not_le.mpr hlt]
  · rcases hsw with hph | hph <;>
      simp [GaitGenerator.update, GaitGenerator.check_transition, hph, hge]
  · rcases hsw with hph | hph <;>
      simp [GaitGenerator.update, GaitGenerator.check_transition, hph, not_le.mpr hlt]

/-- Witness for C2 at a concrete state: the default generator in
`DOUBLE_SUPPORT` with `step_count = 0`, updated with `dt = 1 ≥ 0.6`,
moves to `LEFT_SWING` with its phase clock reset. -/
theorem gait_update_transition_rule_witness :
    ((GaitGenerator.init {}).update 1).phase = GaitPhase.LEFT_SWING ∧
    ((GaitGenerator.init {}).update 1).phase_time = 0 := by
  have h := gait_update_transition_rule (GaitGenerator.init {}) 1 rfl rfl
  have h2 := (h.1 rfl).1 (by norm_num [GaitGenerator.init])
  refine ⟨?_, h2.2.1⟩
  rw [h2.1]
  norm_num [GaitGenerator.init]

/-- C3 counterexample: in the spec's walking scenario (default parameters,
`step_period = 2.0`, `double_support_ratio = 0.3`, `dt = 0.01`), at tick 170
the generator is still in `LEFT_SWING` with `step_count = 0` — it has not
returned to `DOUBLE_SUPPORT` and no step has completed, contrary to the
claimed return at t = 1.70 s. -/
theorem gaitTick170_still_left_swing :
    (gaitTick 170).phase = GaitPhase.LEFT_SWING ∧
    (gaitTick 170).phase ≠ GaitPhase.DOUBLE_SUPPORT ∧
    (gaitTick 170).step_count = 0 := by
  have h : (gaitTick 170).phase = GaitPhase.LEFT_SWING ∧ (gaitTick 170).step_count = 0 := by
    set_option maxRecDepth 4000 in
    norm_num [gaitTick, GaitGenerator.run, GaitGenerator.update,
      GaitGenerator.check_transition, GaitGenerator.init, List.replicate]
  exact ⟨h.1, by rw [h.1]; decide, h.2⟩

/-- C3 amended: the scenario transitions to `LEFT_SWING` at tick 60
(t = 0.60 s, still `DOUBLE_SUPPORT` at tick 59) and returns to
`DOUBLE_SUPPORT` at tick 200 (t = 2.00 s, still `LEFT_SWING` at tick 199),
where `step_count` first equals 1 — since the swing duration is
`2.0 * (1 - 0.3) = 1.4 s`, not 1.1 s. -/
theorem gait_scenario_timeline :
    (gaitTick 59).phase = GaitPhase.DOUBLE_SUPPORT ∧
    (gaitTick 60).phase = GaitPhase.LEFT_SWING ∧
    (gaitTick 199).phase = GaitPhase.LEFT_SWING ∧
    (gaitTick 199).step_count = 0 ∧
    (gaitTick 200).phase = GaitPhase.DOUBLE_SUPPORT ∧
    (gaitTick 200).step_count = 1 ∧
    (gaitTick 200).total_time = 2 := by
  set_option maxRecDepth 4000 in
  norm_num [gaitTick, GaitGenerator.run, GaitGenerator.update,
    GaitGenerator.check_transition, GaitGenerator.init, List.replicate]

theorem swingEntries_alternatesFrom (dts : List ℚ) :
    ∀ (g : GaitGenerator) (b : Bool), sideInv g b →
      alternatesFrom b (swingEntries g dts) = true := by
  induction dts with
  | nil => intro g b _; rfl
  | cons dt rest ih =>
    intro g b hinv
    obtain ⟨hds, hls, hrs⟩ := hinv
    rw [swingEntries]
    cases hph : g.phase with
    | DOUBLE_SUPPORT =>
      have hiff := hds hph
      by_cases hc : g.double_dur ≤ g.phase_time + dt
      · obtain ⟨hp', _, hcnt'⟩ := update_ds_trans g dt hph hc
        by_cases hpar : g.step_count % 2 = 0
        · have hb : b = true := hiff.mp hpar
          subst hb
          rw [if_pos hpar] at hp'
          have hentry : swingEntryOf g (g.update dt) = [true] := by
            simp [swingEntryOf, hph, hp']
          rw [hentry, List.cons_append, List.nil_append, alternatesFrom]
          simp only [beq_self_eq_true, Bool.true_and]
          exact ih _ false ⟨by simp [hp'], fun _ => ⟨by omega, rfl⟩, by simp [hp']⟩
        · have hb : b = false := by
            cases b with
            | false => rfl
            | true => exact absurd (hiff.mpr rfl) hpar
          subst hb
          rw [if_neg hpar] at hp'
          have hentry : swingEntryOf g (g.update dt) = [false] := by
            simp [swingEntryOf, hph, hp']
          rw [hentry, List.cons_append, List.nil_append, alternatesFrom]
          simp only [beq_self_eq_true, Bool.true_and]
          exact ih _ true ⟨by simp [hp'], by simp [hp'], fun _ => ⟨by omega, rfl⟩⟩
      · obtain ⟨hp', _, hcnt'⟩ := update_ds_stay g dt hph hc
        have hentry : swingEntryOf g (g.update dt) = [] := by
          simp [swingEntryOf, hph, hp']
        rw [hentry, List.nil_append]
        exact ih _ b ⟨fun _ => by rw [hcnt']; exact hiff, by simp [hp'], by simp [hp']⟩
    | LEFT_SWING =>
      obtain ⟨hpar, hb⟩ := hls hph
      subst hb
      have hnds : g.phase ≠ GaitPhase.DOUBLE_SUPPORT := by rw [hph]; decide
      have hentry : swingEntryOf g (g.update dt) = [] := by
        simp [swingEntryOf, hph]
      rw [hentry, List.nil_append]
      by_cases hc : g.swing_dur ≤ g.phase_time + dt
      · obtain ⟨hp', _, hcnt'⟩ := update_swing_trans g dt hnds hc
        exact ih _ false ⟨fun _ => by
          rw [hcnt']; simp only [Bool.false_eq_true, iff_false]; omega,
          by simp [hp'], by simp [hp']⟩
      · obtain ⟨hp', _, hcnt'⟩ := update_swing_stay g dt hnds hc
        rw [hph] at hp'
        exact ih _ false ⟨by simp [hp'], fun _ => ⟨by rw [hcnt']; exact hpar, rfl⟩,
          by simp [hp']⟩
    | RIGHT_SWING =>
      obtain ⟨hpar, hb⟩ := hrs hph
      subst hb
      have hnds : g.phase ≠ GaitPhase.DOUBLE_SUPPORT := by rw [hph]; decide
      have hentry : swingEntryOf g (g.update dt) = [] := by
        simp [swingEntryOf, hph]
      rw [hentry, List.nil_append]
      by_cases hc : g.swing_dur ≤ g.phase_time + dt
      · obtain ⟨hp', _, hcnt'⟩ := update_swing_trans g dt hnds hc
        exact ih _ true ⟨fun _ => by
          rw [hcnt']; simp only [eq_self_iff_true, iff_true]; omega,
          by simp [hp'], by simp [hp']⟩
      · obtain ⟨hp', _, hcnt'⟩ := update_swing_stay g dt hnds hc
        rw [hph] at hp'
        exact ih _ true ⟨by simp [hp'], by simp [hp'],
          fun _ => ⟨by rw [hcnt']; exact hpar, rfl⟩⟩

/-- C5: from construction or reset, the sequence of swing sides entered is
strictly alternating, starting with the left side. -/
theorem swing_sides_alternate (p : GaitParams) (g0 : GaitGenerator) (dts dts' : List ℚ)
    (h1 : ∀ dt ∈ dts, 0 ≤ dt) (h2 : ∀ dt ∈ dts', 0 ≤ dt) :
    alternatesFrom true (swingEntries (GaitGenerator.init p) dts) = true ∧
    alternatesFrom true (swingEntries g0.reset dts') = true := by
  constructor
  · refine swingEntries_alternatesFrom dts _ true ⟨fun _ => by simp [GaitGenerator.init], ?_, ?_⟩ <;>
      · intro hctr
        simp [GaitGenerator.init] at hctr
  · refine swingEntries_alternatesFrom dts' _ true ⟨fun _ => by simp [GaitGenerator.reset], ?_, ?_⟩ <;>
      · intro hctr
        simp [GaitGenerator.reset] at hctr

/-- Witness for C5 at concrete inputs: default parameters, update sequences
[1, 2, 1] and [1] of nonnegative time steps. -/
theorem swing_sides_alternate_witness :
    alternatesFrom true (swingEntries (GaitGenerator.init {}) [1, 2, 1]) = true ∧
    alternatesFrom true (swingEntries (GaitGenerator.init {}).reset [1]) = true := by
  refine swing_sides_alternate {} (GaitGenerator.init {}) [1, 2, 1] [1] ?_ ?_
  · intro dt hdt
    simp at hdt
    rcases hdt with rfl | rfl | rfl <;> norm_num
  · intro dt hdt
    simp at hdt
    subst hdt
    norm_num

theorem update_total_time (g : GaitGenerator) (dt : ℚ) :
    (g.update dt).total_time = g.total_time + dt := by
  unfold GaitGenerator.update GaitGenerator.check_transition
  cases g.phase <;> dsimp only <;> split_ifs <;> rfl

theorem update_durations (g : GaitGenerator) (dt : ℚ) :
    (g.update dt).double_dur = g.double_dur ∧ (g.update dt).swing_dur = g.swing_dur ∧
    (g.update dt).params = g.params := by
  unfold GaitGenerator.update GaitGenerator.check_transition
  cases g.phase <;> dsimp only <;> split_ifs <;> exact ⟨rfl, rfl, rfl⟩

theorem run_cons (g : GaitGenerator) (dt : ℚ) (rest : List ℚ) :
    g.run (dt :: rest) = (g.update dt).run rest := rfl

/-- The phase machine is a function of the `fsm` projection and the two
cached durations only. -/
theorem update_fsm_congr (g₁ g₂ : GaitGenerator) (dt : ℚ)
    (h : g₁.fsm = g₂.fsm) (hd : g₁.double_dur = g₂.double_dur)
    (hs : g₁.swing_dur = g₂.swing_dur) :
    (g₁.update dt).fsm = (g₂.update dt).fsm := by
  obtain ⟨hp, ht, htt, hc⟩ :
      g₁.phase = g₂.phase ∧ g₁.phase_time = g₂.phase_time ∧
      g₁.total_time = g₂.total_time ∧ g₁.step_count = g₂.step_count := by
    simpa [GaitGenerator.fsm, Prod.ext_iff] using h
  cases hph₂ : g₂.phase with
  | DOUBLE_SUPPORT =>
    have hph₁ : g₁.phase = GaitPhase.DOUBLE_SUPPORT := hp.trans hph₂
    by_cases hcond : g₂.double_dur ≤ g₂.phase_time + dt
    · have e1 := update_ds_trans g₁ dt hph₁ (by rw [hd, ht]; exact hcond)
      have e2 := update_ds_trans g₂ dt hph₂ hcond
      simp [GaitGenerator.fsm, Prod.ext_iff, e1.1, e1.2.1, e1.2.2, e2.1, e2.2.1, e2.2.2,
        update_total_time, htt, hc]
    · have e1 := update_ds_stay g₁ dt hph₁ (by rw [hd, ht]; exact hcond)
      have e2 := update_ds_stay g₂ dt hph₂ hcond
      simp [GaitGenerator.fsm, Prod.ext_iff, e1.1, e1.2.1, e1.2.2, e2.1, e2.2.1, e2.2.2,
        update_total_time, htt, hc, ht]
  | LEFT_SWING =>
    have hph₁ : g₁.phase = GaitPhase.LEFT_SWING := hp.trans hph₂
    have hn₁ : g₁.phase ≠ GaitPhase.DOUBLE_SUPPORT := by rw [hph₁]; decide
    have hn₂ : g₂.phase ≠ GaitPhase.DOUBLE_SUPPORT := by rw [hph₂]; decide
    by_cases hcond : g₂.swing_dur ≤ g₂.phase_time + dt
    · have e1 := update_swing_trans g₁ dt hn₁ (by rw [hs, ht]; exact hcond)
      have e2 := update_swing_trans g₂ dt hn₂ hcond
      simp [GaitGenerator.fsm, Prod.ext_iff, e1.1, e1.2.1, e1.2.2, e2.1, e2.2.1, e2.2.2,
        update_total_time, htt, hc]
    · have e1 := update_swing_stay g₁ dt hn₁ (by rw [hs, ht]; exact hcond)
      have e2 := update_swing_stay g₂ dt hn₂ hcond
      simp [GaitGenerator.fsm, Prod.ext_iff, e1.1, e1.2.1, e1.2.2, e2.1, e2.2.1, e2.2.2,
        update_total_time, htt, hc, ht, hp]
  | RIGHT_SWING =>
    have hph₁ : g₁.phase = GaitPhase.RIGHT_SWING := hp.trans hph₂
    have hn₁ : g₁.phase ≠ GaitPhase.DOUBLE_SUPPORT := by rw [hph₁]; decide
    have hn₂ : g₂.phase ≠ GaitPhase.DOUBLE_SUPPORT := by rw [hph₂]; decide
    by_cases hcond : g₂.swing_dur ≤ g₂.phase_time + dt
    · have e1 := update_swing_trans g₁ dt hn₁ (by rw [hs, ht]; exact hcond)
      have e2 := update_swing_trans g₂ dt hn₂ hcond
      simp [GaitGenerator.fsm, Prod.ext_iff, e1.1, e1.2.1, e1.2.2, e2.1, e2.2.1, e2.2.2,
        update_total_time, htt, hc]
    · have e1 := update_swing_stay g₁ dt hn₁ (by rw [hs, ht]; exact hcond)
      have e2 := update_swing_stay g₂ dt hn₂ hcond
      simp [GaitGenerator.fsm, Prod.ext_iff, e1.1, e1.2.1, e1.2.2, e2.1, e2.2.1, e2.2.2,
        update_total_time, htt, hc, ht, hp]

theorem run_fsm_congr (dts : List ℚ) :
    ∀ g₁ g₂ : GaitGenerator, g₁.fsm = g₂.fsm → g₁.double_dur = g₂.double_dur →
      g₁.swing_dur = g₂.swing_dur → (g₁.run dts).fsm = (g₂.run dts).fsm := by
  induction dts with
  | nil => intro g₁ g₂ h _ _; exact h
  | cons dt rest ih =>
    intro g₁ g₂ h hd hs
    rw [run_cons, run_cons]
    exact ih _ _ (update_fsm_congr g₁ g₂ dt h hd hs)
      (((update_durations g₁ dt).1.trans hd).trans (update_durations g₂ dt).1.symm)
      (((update_durations g₁ dt).2.1.trans hs).trans (update_durations g₂ dt).2.1.symm)

/-- C8: `stop()` zeroes exactly `step_length`, `turn_rate` and `step_height`;
the phase-machine state, the cached durations and every other parameter are
unchanged, and afterwards the phase machine evolves tick for tick exactly as
it would have without the `stop` (no immediate phase jump). -/
theorem stop_frame_effect (g : GaitGenerator) (dts : List ℚ) :
    g.stop.phase = g.phase ∧ g.stop.phase_time = g.phase_time ∧
    g.stop.total_time = g.total_time ∧ g.stop.step_count = g.step_count ∧
    g.stop.double_dur = g.double_dur ∧ g.stop.swing_dur = g.swing_dur ∧
    g.stop.params.step_length = 0 ∧ g.stop.params.turn_rate = 0 ∧
    g.stop.params.step_height = 0 ∧
    g.stop.params.step_period = g.params.step_period ∧
    g.stop.params.double_support_ratio = g.params.double_support_ratio ∧
    g.stop.params.com_shift_y = g.params.com_shift_y ∧
    g.stop.params.foot_x_offset = g.params.foot_x_offset ∧
    g.stop.params.foot_z_stand = g.params.foot_z_stand ∧
    (g.stop.run dts).fsm = (g.run dts).fsm :=
  ⟨rfl, rfl, rfl, rfl, rfl, rfl, rfl, rfl, rfl, rfl, rfl, rfl, rfl, rfl,
    run_fsm_congr dts _ _ rfl rfl rfl⟩

/-- C10: the phase-duration thresholds are computed once at construction from
`step_period` and `double_support_ratio`; `set_velocity`, `stop`, and any
later mutation of the `GaitParams` block leave both cached thresholds — and
hence the whole phase-machine evolution — unchanged. -/
theorem durations_fixed_at_construction (p q : GaitParams) (g : GaitGenerator)
    (f t : ℚ) (dts : List ℚ) :
    (GaitGenerator.init p).double_dur = p.step_period * p.double_support_ratio ∧
    (GaitGenerator.init p).swing_dur = p.step_period * (1 - p.double_support_ratio) ∧
    (g.set_velocity f t).double_dur = g.double_dur ∧
    (g.set_velocity f t).swing_dur = g.swing_dur ∧
    g.stop.double_dur = g.double_dur ∧ g.stop.swing_dur = g.swing_dur ∧
    (g.setParams q).double_dur = g.double_dur ∧
    (g.setParams q).swing_dur = g.swing_dur ∧
    ((g.set_velocity f t).run dts).fsm = (g.run dts).fsm ∧
    ((g.setParams q).run dts).fsm = (g.run dts).fsm :=
  ⟨rfl, rfl, rfl, rfl, rfl, rfl, rfl, rfl,
    run_fsm_congr dts _ _ rfl rfl rfl, run_fsm_congr dts _ _ rfl rfl rfl⟩

theorem posture_run_integral_bound (inputs : List (ℚ × ℚ × ℚ)) :
    ∀ c : PostureController, |c._ri| ≤ c.integral_limit → |c._pi| ≤ c.integral_limit →
      0 ≤ c.integral_limit →
      |(c.run inputs)._ri| ≤ c.integral_limit ∧ |(c.run inputs)._pi| ≤ c.integral_limit ∧
      (c.run inputs).integral_limit = c.integral_limit := by
  induction inputs with
  | nil => intro c h1 h2 _; exact ⟨h1, h2, rfl⟩
  | cons i rest ih =>
    intro c h1 h2 h3
    have hstep : c.run (i :: rest) = ((c.update i.1 i.2.1 i.2.2).1).run rest := rfl
    rw [hstep]
    have hlim : ((c.update i.1 i.2.1 i.2.2).1).integral_limit = c.integral_limit := rfl
    have hb := npClip_mem (c._ri + (c.target_roll - i.1) * i.2.2)
      (-c.integral_limit) c.integral_limit (by linarith)
    have hb' := npClip_mem (c._pi + (c.target_pitch - i.2.1) * i.2.2)
      (-c.integral_limit) c.integral_limit (by linarith)
    have h1' : |((c.update i.1 i.2.1 i.2.2).1)._ri| ≤ c.integral_limit := by
      rw [PostureController.update]
      exact abs_le.mpr ⟨by simpa using hb.1, hb.2⟩
    have h2' : |((c.update i.1 i.2.1 i.2.2).1)._pi| ≤ c.integral_limit := by
      rw [PostureController.update]
      exact abs_le.mpr ⟨by simpa using hb'.1, hb'.2⟩
    have := ih _ (hlim ▸ h1') (hlim ▸ h2') (hlim ▸ h3)
    exact ⟨this.1, this.2.1, this.2.2⟩

theorem com_run_integral_bound (inputs : List (ℚ × ℚ)) :
    ∀ c : CenterOfMassController, |c._i| ≤ 5/100 →
      |(c.run inputs)._i| ≤ 5/100 := by
  induction inputs with
  | nil => intro c h; exact h
  | cons i rest ih =>
    intro c h
    have hstep : c.run (i :: rest) = ((c.update i.1 i.2).1).run rest := rfl
    rw [hstep]
    have hb := npClip_mem (c._i + (c.target - i.1) * i.2) (-(5/100) : ℚ) (5/100)
      (by norm_num)
    refine ih _ ?_
    rw [CenterOfMassController.update]
    exact abs_le.mpr ⟨by simpa using hb.1, hb.2⟩

/-- C6: for every sequence of updates, the posture controller's roll and
pitch integral accumulators stay within ±`integral_limit` (5.0) and the
center-of-mass controller's integral stays within ±0.05. -/
theorem integral_accumulators_clamped (rg pg : Option PIDGains) (tr tp th : ℚ)
    (inputs : List (ℚ × ℚ × ℚ)) (ins : List (ℚ × ℚ)) :
    |((PostureController.init rg pg tr tp).run inputs)._ri| ≤ 5 ∧
    |((PostureController.init rg pg tr tp).run inputs)._pi| ≤ 5 ∧
    |((CenterOfMassController.init th).run ins)._i| ≤ 5/100 := by
  have h := posture_run_integral_bound inputs (PostureController.init rg pg tr tp)
    (by norm_num [PostureController.init]) (by norm_num [PostureController.init])
    (by norm_num [PostureController.init])
  have h2 := com_run_integral_bound ins (CenterOfMassController.init th)
    (by norm_num [CenterOfMassController.init])
  exact ⟨h.1, h.2.1, h2⟩

theorem posture_update_at_target (c : PostureController) (dt : ℚ)
    (hri : c._ri = 0) (hpi : c._pi = 0) (hre : c._re = 0) (hpe : c._pe = 0)
    (hlim : 0 ≤ c.integral_limit) :
    c.update c.target_roll c.target_pitch dt = (c, 0, 0) := by
  rcases c with ⟨rgains, pgains, troll, tpitch, ri0, pi0, re0, pe0, lim⟩
  dsimp at hri hpi hre hpe hlim
  subst hri hpi hre hpe
  rw [PostureController.update]
  have hclip : npClip (0 : ℚ) (-lim) lim = 0 :=
    npClip_eq_self (neg_nonpos.mpr hlim) hlim
  norm_num [hclip]

theorem com_update_at_target (c : CenterOfMassController) (dt : ℚ)
    (hi : c._i = 0) (he : c._e = 0) :
    c.update c.target dt = (c, 0) := by
  rcases c with ⟨tgt, gains, i0, e0⟩
  dsimp at hi he
  subst hi he
  rw [CenterOfMassController.update]
  have hclip : npClip (0 : ℚ) (-(1/20)) (1/20) = 0 :=
    npClip_eq_self (by norm_num) (by norm_num)
  norm_num [hclip]

theorem standing_init_fixpoint (th tr tp dt : ℚ) :
    (StandingController.init th tr tp).compute_control th tr tp dt =
      (StandingController.init th tr tp, standingBaseJoints.map (fun j => (j, 0))) := by
  have hp : (StandingController.init th tr tp).posture.update tr tp dt =
      ((StandingController.init th tr tp).posture, 0, 0) :=
    posture_update_at_target (PostureController.init none none tr tp) dt
      rfl rfl rfl rfl (by norm_num [PostureController.init])
  have hc : (StandingController.init th tr tp).com.update th dt =
      ((StandingController.init th tr tp).com, 0) :=
    com_update_at_target (CenterOfMassController.init th) dt rfl rfl
  rw [StandingController.compute_control, hp, hc]
  simp only [Prod.mk.injEq]
  refine ⟨by first | rfl | trivial, ?_⟩
  have hclip : npClip (0 : ℚ) (-3) 3 = 0 := npClip_eq_self (by norm_num) (by norm_num)
  have hpc : PostureController.compute_joint_corrections 0 0 =
      [("left_hip_roll", 0), ("right_hip_roll", 0), ("left_hip_pitch", 0),
       ("right_hip_pitch", 0), ("left_ankle_pitch", 0), ("right_ankle_pitch", 0)] := by
    norm_num [PostureController.compute_joint_corrections]
  have hhc : CenterOfMassController.compute_leg_extension 0 =
      [("left_knee", 0), ("right_knee", 0), ("left_hip_pitch", 0),
       ("right_hip_pitch", 0)] := by
    norm_num [CenterOfMassController.compute_leg_extension]
  simp [hpc, hhc, StandingController.init, standingBaseJoints, dictGet,
    List.lookup, hclip]

/-- C7: a standing controller with the all-zero base pose whose measured
height, roll and pitch equal its targets on every tick outputs the zero map
for every configured joint, on every tick, whatever the `dt` sequence. -/
theorem standing_zero_error_zero_output (th tr tp : ℚ) (dts : List ℚ) :
    StandingController.runAtTargets (StandingController.init th tr tp) dts =
      List.replicate dts.length (standingBaseJoints.map (fun j => (j, 0))) := by
  induction dts with
  | nil => rfl
  | cons dt rest ih =>
    rw [StandingController.runAtTargets]
    have htarget : (StandingController.init th tr tp).com.target = th := rfl
    have hroll : (StandingController.init th tr tp).posture.target_roll = tr := rfl
    have hpitch : (StandingController.init th tr tp).posture.target_pitch = tp := rfl
    rw [htarget, hroll, hpitch, standing_init_fixpoint]
    rw [List.length_cons, List.replicate_succ]
    exact congrArg _ ih

/-- C9: in the locomotion composition, every joint of the gait output gets
exactly the posture-PID correction for it clamped to ±2°, added; a joint with
no correction entry passes through unchanged. -/
theorem gait_posture_composition (rc pc : ℚ) (gait : List (String × ℚ))
    (j : String) (v : ℚ) (hjv : (j, v) ∈ gait) :
    (j, v + npClip (dictGet (PostureController.compute_joint_corrections rc pc) j 0)
        (-2) 2) ∈
      composeGaitPosture gait (PostureController.compute_joint_corrections rc pc) ∧
    ((PostureController.compute_joint_corrections rc pc).lookup j = none →
      (j, v) ∈
        composeGaitPosture gait (PostureController.compute_joint_corrections rc pc)) := by
  constructor
  · have := List.mem_map_of_mem
      (fun jv : String × ℚ =>
        (jv.1, jv.2 + npClip (dictGet (PostureController.compute_joint_corrections rc pc)
          jv.1 0) (-2) 2)) hjv
    exact this
  · intro hnone
    have hz : dictGet (PostureController.compute_joint_corrections rc pc) j 0 = 0 := by
      rw [dictGet, hnone]; rfl
    have hclip : npClip (0 : ℚ) (-2) 2 = 0 := npClip_eq_self (by norm_num) (by norm_num)
    have := List.mem_map_of_mem
      (fun jv : String × ℚ =>
        (jv.1, jv.2 + npClip (dictGet (PostureController.compute_joint_corrections rc pc)
          jv.1 0) (-2) 2)) hjv
    simpa [composeGaitPosture, hz, hclip] using this

/-- Witness for C9 at a concrete input: gait output `[("head_pitch", 7)]`
(a joint with no posture correction entry) with corrections from
`rc = pc = 5` passes through unchanged. -/
theorem gait_posture_composition_witness :
    ("head_pitch", (7 : ℚ)) ∈
      composeGaitPosture [("head_pitch", 7)]
        (PostureController.compute_joint_corrections 5 5) := by
  refine (gait_posture_composition 5 5 [("head_pitch", 7)] "head_pitch" 7 ?_).2 ?_
  · exact List.mem_singleton.mpr rfl
  · rfl

theorem deg2rad_rad2deg (x : ℝ) : deg2rad (rad2deg x) = x := by
  rw [deg2rad, rad2deg]
  field_simp

theorem cos_bounds (L1 L2 d : ℝ) (hL1 : 0 < L1) (hL2 : 0 < L2) (hd : 0 < d)
    (h1 : |L1 - L2| ≤ d) (h2 : d ≤ L1 + L2) :
    (-1 ≤ (L1^2 + L2^2 - d^2) / (2*L1*L2) ∧ (L1^2 + L2^2 - d^2) / (2*L1*L2) ≤ 1) ∧
    (-1 ≤ (L1^2 + d^2 - L2^2) / (2*L1*d) ∧ (L1^2 + d^2 - L2^2) / (2*L1*d) ≤ 1) := by
  obtain ⟨ha, hb⟩ := abs_le.mp h1
  have hp1 : (0:ℝ) < 2*L1*L2 := by positivity
  have hp2 : (0:ℝ) < 2*L1*d := by positivity
  refine ⟨⟨?_, ?_⟩, ?_, ?_⟩
  · rw [le_div_iff₀ hp1]
    nlinarith [mul_nonneg (by linarith : (0:ℝ) ≤ L1 + L2 - d) (by linarith : (0:ℝ) ≤ L1 + L2 + d)]
  · rw [div_le_one hp1]
    nlinarith [mul_nonneg (by linarith : (0:ℝ) ≤ L1 - L2 + d) (by linarith : (0:ℝ) ≤ d - (L1 - L2))]
  · rw [le_div_iff₀ hp2]
    nlinarith [mul_nonneg (by linarith : (0:ℝ) ≤ L1 + d - L2) (by linarith : (0:ℝ) ≤ L1 + d + L2)]
  · rw [div_le_one hp2]
    nlinarith [mul_nonneg (by linarith : (0:ℝ) ≤ L2 - (L1 - d)) (by linarith : (0:ℝ) ≤ L1 - d + L2)]

theorem sin_arccos_beta (L1 L2 d : ℝ) (hL1 : 0 < L1) (hd : 0 < d)
    (hb1 : -1 ≤ (L1^2 + d^2 - L2^2) / (2*L1*d))
    (hb2 : (L1^2 + d^2 - L2^2) / (2*L1*d) ≤ 1) :
    Real.sin (Real.arccos ((L1^2 + d^2 - L2^2) / (2*L1*d))) =
      Real.sqrt (2*(L1^2*L2^2 + L1^2*d^2 + L2^2*d^2) - L1^4 - L2^4 - d^4) / (2*L1*d) := by
  rw [Real.sin_arccos]
  have hB : (0:ℝ) < 2*L1*d := by positivity
  have hfr : 1 - ((L1^2 + d^2 - L2^2) / (2*L1*d))^2 =
      ((2*L1*d)^2 - (L1^2 + d^2 - L2^2)^2) / (2*L1*d)^2 := by
    field_simp
  have hpoly : (2*L1*d)^2 - (L1^2 + d^2 - L2^2)^2 =
      2*(L1^2*L2^2 + L1^2*d^2 + L2^2*d^2) - L1^4 - L2^4 - d^4 := by ring
  have hA1 : -(2*L1*d) ≤ L1^2 + d^2 - L2^2 := by
    rw [le_div_iff₀ hB] at hb1
    linarith
  have hA2 : L1^2 + d^2 - L2^2 ≤ 2*L1*d := by
    rw [div_le_one hB] at hb2
    linarith
  have hSnn : (0:ℝ) ≤ 2*(L1^2*L2^2 + L1^2*d^2 + L2^2*d^2) - L1^4 - L2^4 - d^4 := by
    nlinarith [mul_nonneg (by linarith : (0:ℝ) ≤ 2*L1*d - (L1^2 + d^2 - L2^2))
      (by linarith : (0:ℝ) ≤ 2*L1*d + (L1^2 + d^2 - L2^2))]
  rw [hfr, hpoly, Real.sqrt_div hSnn, Real.sqrt_sq (by positivity : (0:ℝ) ≤ 2*L1*d)]

theorem sin_arccos_gamma (L1 L2 d : ℝ) (hL1 : 0 < L1) (hL2 : 0 < L2)
    (hb1 : -1 ≤ (L1^2 + L2^2 - d^2) / (2*L1*L2))
    (hb2 : (L1^2 + L2^2 - d^2) / (2*L1*L2) ≤ 1) :
    Real.sin (Real.arccos ((L1^2 + L2^2 - d^2) / (2*L1*L2))) =
      Real.sqrt (2*(L1^2*L2^2 + L1^2*d^2 + L2^2*d^2) - L1^4 - L2^4 - d^4) / (2*L1*L2) := by
  rw [Real.sin_arccos]
  have hB : (0:ℝ) < 2*L1*L2 := by positivity
  have hfr : 1 - ((L1^2 + L2^2 - d^2) / (2*L1*L2))^2 =
      ((2*L1*L2)^2 - (L1^2 + L2^2 - d^2)^2) / (2*L1*L2)^2 := by
    field_simp
  have hpoly : (2*L1*L2)^2 - (L1^2 + L2^2 - d^2)^2 =
      2*(L1^2*L2^2 + L1^2*d^2 + L2^2*d^2) - L1^4 - L2^4 - d^4 := by ring
  have hA1 : -(2*L1*L2) ≤ L1^2 + L2^2 - d^2 := by
    rw [le_div_iff₀ hB] at hb1
    linarith
  have hA2 : L1^2 + L2^2 - d^2 ≤ 2*L1*L2 := by
    rw [div_le_one hB] at hb2
    linarith
  have hSnn : (0:ℝ) ≤ 2*(L1^2*L2^2 + L1^2*d^2 + L2^2*d^2) - L1^4 - L2^4 - d^4 := by
    nlinarith [mul_nonneg (by linarith : (0:ℝ) ≤ 2*L1*L2 - (L1^2 + L2^2 - d^2))
      (by linarith : (0:ℝ) ≤ 2*L1*L2 + (L1^2 + L2^2 - d^2))]
  rw [hfr, hpoly, Real.sqrt_div hSnn, Real.sqrt_sq (by positivity : (0:ℝ) ≤ 2*L1*L2)]

theorem lawcos_cos_id (L1 L2 d : ℝ) (hL1 : 0 < L1) (hL2 : 0 < L2) (hd : 0 < d)
    (h1 : |L1 - L2| ≤ d) (h2 : d ≤ L1 + L2) :
    L1 * Real.cos (Real.arccos ((L1^2 + d^2 - L2^2) / (2*L1*d))) -
      L2 * Real.cos (Real.arccos ((L1^2 + d^2 - L2^2) / (2*L1*d)) +
        Real.arccos ((L1^2 + L2^2 - d^2) / (2*L1*L2))) = d := by
  obtain ⟨⟨hw1, hw2⟩, hu1, hu2⟩ := cos_bounds L1 L2 d hL1 hL2 hd h1 h2
  rw [Real.cos_add, Real.cos_arccos hu1 hu2, Real.cos_arccos hw1 hw2,
    sin_arccos_beta L1 L2 d hL1 hd hu1 hu2, sin_arccos_gamma L1 L2 d hL1 hL2 hw1 hw2]
  have hSnn : (0:ℝ) ≤ 2*(L1^2*L2^2 + L1^2*d^2 + L2^2*d^2) - L1^4 - L2^4 - d^4 := by
    have hB : (0:ℝ) < 2*L1*d := by positivity
    have hA1 := (le_div_iff₀ hB).mp hu1
    have hA2 := (div_le_one hB).mp hu2
    nlinarith [mul_nonneg (by linarith : (0:ℝ) ≤ 2*L1*d - (L1^2 + d^2 - L2^2))
      (by linarith : (0:ℝ) ≤ 2*L1*d + (L1^2 + d^2 - L2^2))]
  have hmul : Real.sqrt (2*(L1^2*L2^2 + L1^2*d^2 + L2^2*d^2) - L1^4 - L2^4 - d^4) / (2*L1*d) *
      (Real.sqrt (2*(L1^2*L2^2 + L1^2*d^2 + L2^2*d^2) - L1^4 - L2^4 - d^4) / (2*L1*L2)) =
      (2*(L1^2*L2^2 + L1^2*d^2 + L2^2*d^2) - L1^4 - L2^4 - d^4) / ((2*L1*d) * (2*L1*L2)) := by
    rw [div_mul_div_comm, Real.mul_self_sqrt hSnn]
  rw [hmul]
  field_simp
  ring

theorem lawcos_sin_id (L1 L2 d : ℝ) (hL1 : 0 < L1) (hL2 : 0 < L2) (hd : 0 < d)
    (h1 : |L1 - L2| ≤ d) (h2 : d ≤ L1 + L2) :
    L1 * Real.sin (Real.arccos ((L1^2 + d^2 - L2^2) / (2*L1*d))) =
      L2 * Real.sin (Real.arccos ((L1^2 + d^2 - L2^2) / (2*L1*d)) +
        Real.arccos ((L1^2 + L2^2 - d^2) / (2*L1*L2))) := by
  obtain ⟨⟨hw1, hw2⟩, hu1, hu2⟩ := cos_bounds L1 L2 d hL1 hL2 hd h1 h2
  rw [Real.sin_add, Real.cos_arccos hu1 hu2, Real.cos_arccos hw1 hw2,
    sin_arccos_beta L1 L2 d hL1 hd hu1 hu2, sin_arccos_gamma L1 L2 d hL1 hL2 hw1 hw2]
  field_simp
  ring

theorem triangle_sin_closure (L1 L2 d θ : ℝ) (hL1 : 0 < L1) (hL2 : 0 < L2) (hd : 0 < d)
    (h1 : |L1 - L2| ≤ d) (h2 : d ≤ L1 + L2) :
    L1 * Real.sin (θ - Real.arccos ((L1^2 + d^2 - L2^2) / (2*L1*d))) -
      L2 * Real.sin (θ - Real.arccos ((L1^2 + d^2 - L2^2) / (2*L1*d)) -
        Real.arccos ((L1^2 + L2^2 - d^2) / (2*L1*L2))) = d * Real.sin θ := by
  have e1 := lawcos_cos_id L1 L2 d hL1 hL2 hd h1 h2
  have e2 := lawcos_sin_id L1 L2 d hL1 hL2 hd h1 h2
  have hsplit : θ - Real.arccos ((L1^2 + d^2 - L2^2) / (2*L1*d)) -
      Real.arccos ((L1^2 + L2^2 - d^2) / (2*L1*L2)) =
      θ - (Real.arccos ((L1^2 + d^2 - L2^2) / (2*L1*d)) +
        Real.arccos ((L1^2 + L2^2 - d^2) / (2*L1*L2))) := by ring
  rw [hsplit, Real.sin_sub θ, Real.sin_sub θ]
  linear_combination Real.sin θ * e1 - Real.cos θ * e2

theorem triangle_cos_closure (L1 L2 d θ : ℝ) (hL1 : 0 < L1) (hL2 : 0 < L2) (hd : 0 < d)
    (h1 : |L1 - L2| ≤ d) (h2 : d ≤ L1 + L2) :
    L1 * Real.cos (θ - Real.arccos ((L1^2 + d^2 - L2^2) / (2*L1*d))) -
      L2 * Real.cos (θ - Real.arccos ((L1^2 + d^2 - L2^2) / (2*L1*d)) -
        Real.arccos ((L1^2 + L2^2 - d^2) / (2*L1*L2))) = d * Real.cos θ := by
  have e1 := lawcos_cos_id L1 L2 d hL1 hL2 hd h1 h2
  have e2 := lawcos_sin_id L1 L2 d hL1 hL2 hd h1 h2
  have hsplit : θ - Real.arccos ((L1^2 + d^2 - L2^2) / (2*L1*d)) -
      Real.arccos ((L1^2 + L2^2 - d^2) / (2*L1*L2)) =
      θ - (Real.arccos ((L1^2 + d^2 - L2^2) / (2*L1*d)) +
        Real.arccos ((L1^2 + L2^2 - d^2) / (2*L1*L2))) := by ring
  rw [hsplit, Real.cos_sub θ, Real.cos_sub θ]
  linear_combination Real.cos θ * e1 + Real.sin θ * e2

theorem alpha_polar (x z : ℝ) :
    Real.sqrt (x^2 + z^2) * Real.sin (atan2 (-x) (-z)) = -x ∧
    Real.sqrt (x^2 + z^2) * Real.cos (atan2 (-x) (-z)) = -z := by
  rcases eq_or_lt_of_le (by positivity : (0:ℝ) ≤ x^2 + z^2) with heq | hpos
  · have hx : x = 0 := by nlinarith [sq_nonneg x, sq_nonneg z]
    have hz : z = 0 := by nlinarith [sq_nonneg x, sq_nonneg z]
    subst hx hz
    norm_num
  · have hne : (⟨-z, -x⟩ : ℂ) ≠ 0 := by
      intro hc
      rw [Complex.ext_iff] at hc
      simp only [Complex.zero_re, Complex.zero_im, neg_eq_zero] at hc
      nlinarith [hc.1, hc.2]
    have habs : Complex.abs ⟨-z, -x⟩ = Real.sqrt (x^2 + z^2) := by
      rw [Complex.abs_apply, Complex.normSq_mk]
      congr 1
      ring
    have hsqrt : (0:ℝ) < Real.sqrt (x^2 + z^2) := Real.sqrt_pos.mpr hpos
    have hsin := Complex.sin_arg (⟨-z, -x⟩ : ℂ)
    have hcos := Complex.cos_arg hne
    simp only [habs] at hsin hcos
    rw [atan2]
    constructor
    · rw [hsin]
      field_simp
      ring
    · rw [hcos]
      field_simp
      ring

/-- The solver's angles, pushed through forward kinematics, land on the point
at distance `effDist x z g` along the commanded direction `atan2(−x, −z)`. -/
theorem fk_solve_polar (g : LegGeometry) (x z : ℝ)
    (hL1 : 0 < g.thigh_length) (hL2 : 0 < g.calf_length)
    (hd : 0 < effDist x z g)
    (hlo : |g.thigh_length - g.calf_length| ≤ effDist x z g)
    (hhi : effDist x z g ≤ g.thigh_length + g.calf_length) :
    fkAnkle g (solve_leg_ikCore x z g).hip_pitch (solve_leg_ikCore x z g).knee =
      (-(effDist x z g * Real.sin (atan2 (-x) (-z))),
       -(effDist x z g * Real.cos (atan2 (-x) (-z)))) := by
  obtain ⟨⟨hw1, hw2⟩, hu1, hu2⟩ :=
    cos_bounds g.thigh_length g.calf_length (effDist x z g) hL1 hL2 hd hlo hhi
  have hclipw : npClip ((g.thigh_length^2 + g.calf_length^2 - (effDist x z g)^2) /
      (2 * g.thigh_length * g.calf_length)) (-1) 1 =
      (g.thigh_length^2 + g.calf_length^2 - (effDist x z g)^2) /
        (2 * g.thigh_length * g.calf_length) := npClip_eq_self hw1 hw2
  have hclipu : npClip ((g.thigh_length^2 + (effDist x z g)^2 - g.calf_length^2) /
      (2 * g.thigh_length * (effDist x z g))) (-1) 1 =
      (g.thigh_length^2 + (effDist x z g)^2 - g.calf_length^2) /
        (2 * g.thigh_length * (effDist x z g)) := npClip_eq_self hu1 hu2
  show fkAnkle g (rad2deg (hipRad x z g)) (rad2deg (kneeRad (effDist x z g) g)) = _
  rw [fkAnkle, deg2rad_rad2deg, deg2rad_rad2deg, hipRad, kneeRad, betaRad, hclipw, hclipu]
  have harg : atan2 (-x) (-z) -
      Real.arccos ((g.thigh_length^2 + (effDist x z g)^2 - g.calf_length^2) /
        (2 * g.thigh_length * (effDist x z g))) +
      (Real.pi - Real.arccos ((g.thigh_length^2 + g.calf_length^2 - (effDist x z g)^2) /
        (2 * g.thigh_length * g.calf_length))) =
      (atan2 (-x) (-z) -
        Real.arccos ((g.thigh_length^2 + (effDist x z g)^2 - g.calf_length^2) /
          (2 * g.thigh_length * (effDist x z g))) -
        Real.arccos ((g.thigh_length^2 + g.calf_length^2 - (effDist x z g)^2) /
          (2 * g.thigh_length * g.calf_length))) + Real.pi := by ring
  rw [harg, Real.sin_add_pi, Real.cos_add_pi]
  have t1 := triangle_sin_closure g.thigh_length g.calf_length (effDist x z g)
    (atan2 (-x) (-z)) hL1 hL2 hd hlo hhi
  have t2 := triangle_cos_closure g.thigh_length g.calf_length (effDist x z g)
    (atan2 (-x) (-z)) hL1 hL2 hd hlo hhi
  simp only [Prod.mk.injEq]
  constructor
  · linear_combination -t1
  · linear_combination -t2

/-- The reconstruction error of the solver is exactly the distance clamp:
`|effDist − d0|`. -/
theorem fk_dist_eq (g : LegGeometry) (x z : ℝ)
    (hL1 : 0 < g.thigh_length) (hL2 : 0 < g.calf_length)
    (hd : 0 < effDist x z g)
    (hlo : |g.thigh_length - g.calf_length| ≤ effDist x z g)
    (hhi : effDist x z g ≤ g.thigh_length + g.calf_length) :
    Real.sqrt
      (((fkAnkle g (solve_leg_ikCore x z g).hip_pitch (solve_leg_ikCore x z g).knee).1 - x)^2 +
       ((fkAnkle g (solve_leg_ikCore x z g).hip_pitch (solve_leg_ikCore x z g).knee).2 - z)^2) =
      |effDist x z g - Real.sqrt (x^2 + z^2)| := by
  obtain ⟨hs, hc⟩ := alpha_polar x z
  rw [fk_solve_polar g x z hL1 hL2 hd hlo hhi]
  dsimp only
  have hx0 : Real.sqrt (x^2 + z^2) * Real.sin (atan2 (-x) (-z)) + x = 0 := by linarith
  have hz0 : Real.sqrt (x^2 + z^2) * Real.cos (atan2 (-x) (-z)) + z = 0 := by linarith
  have key : (-(effDist x z g * Real.sin (atan2 (-x) (-z))) - x)^2 +
      (-(effDist x z g * Real.cos (atan2 (-x) (-z))) - z)^2 =
      (effDist x z g - Real.sqrt (x^2 + z^2))^2 *
        (Real.sin (atan2 (-x) (-z))^2 + Real.cos (atan2 (-x) (-z))^2) := by
    linear_combination
      (Real.sqrt (x^2 + z^2) * Real.sin (atan2 (-x) (-z)) + x -
        2*(Real.sqrt (x^2 + z^2) - effDist x z g) * Real.sin (atan2 (-x) (-z))) * hx0 +
      (Real.sqrt (x^2 + z^2) * Real.cos (atan2 (-x) (-z)) + z -
        2*(Real.sqrt (x^2 + z^2) - effDist x z g) * Real.cos (atan2 (-x) (-z))) * hz0
  rw [key, Real.sin_sq_add_cos_sq, mul_one, Real.sqrt_sq_eq_abs]

/-- C1: for every target within `[|L1−L2|, L1+L2]` of the hip, the angles
returned by `solve_leg_ik`, interpreted by planar 2-link forward kinematics,
place the ankle back at the target within 1e-3 (the only deviation is the
1e-6 lower clamp). -/
theorem solve_leg_ik_reconstructs_target (g : LegGeometry) (x z : ℝ) (sol : IKSol)
    (hL1 : 1/100 ≤ g.thigh_length) (hL2 : 1/100 ≤ g.calf_length)
    (hlo : |g.thigh_length - g.calf_length| ≤ Real.sqrt (x^2 + z^2))
    (hhi : Real.sqrt (x^2 + z^2) ≤ g.thigh_length + g.calf_length)
    (hsol : solve_leg_ik x z g = some sol) :
    Real.sqrt ((((fkAnkle g sol.hip_pitch sol.knee).1) - x)^2 +
      (((fkAnkle g sol.hip_pitch sol.knee).2) - z)^2) ≤ 1/1000 := by
  have hsolc : sol = solve_leg_ikCore x z g := by
    rw [solve_leg_ik] at hsol
    exact (Option.some_inj.mp hsol).symm
  subst hsolc
  have hL1' : (0:ℝ) < g.thigh_length := lt_of_lt_of_le (by norm_num) hL1
  have hL2' : (0:ℝ) < g.calf_length := lt_of_lt_of_le (by norm_num) hL2
  have habs0 : (0:ℝ) ≤ |g.thigh_length - g.calf_length| := abs_nonneg _
  have hmle : |g.thigh_length - g.calf_length| + 1/1000000 ≤
      g.thigh_length + g.calf_length := by
    rcases abs_cases (g.thigh_length - g.calf_length) with ⟨he, _⟩ | ⟨he, _⟩ <;>
      rw [he] <;> linarith
  have hmaxne : ¬ (g.thigh_length + g.calf_length < Real.sqrt (x^2 + z^2)) :=
    not_lt.mpr hhi
  by_cases hcase : Real.sqrt (x^2 + z^2) <
      |g.thigh_length - g.calf_length| + 1/1000000
  · have heff : effDist x z g = |g.thigh_length - g.calf_length| + 1/1000000 := by
      simp only [effDist]
      rw [if_neg hmaxne, if_pos hcase]
    have hd : 0 < effDist x z g := by rw [heff]; positivity
    have hlo' : |g.thigh_length - g.calf_length| ≤ effDist x z g := by
      rw [heff]; linarith
    have hhi' : effDist x z g ≤ g.thigh_length + g.calf_length := by
      rw [heff]; linarith
    rw [fk_dist_eq g x z hL1' hL2' hd hlo' hhi', heff, abs_le]
    constructor <;> linarith
  · have heff : effDist x z g = Real.sqrt (x^2 + z^2) := by
      simp only [effDist]
      rw [if_neg hmaxne, if_neg hcase]
    have hd : 0 < effDist x z g := by rw [heff]; linarith [not_lt.mp hcase]
    have hlo' : |g.thigh_length - g.calf_length| ≤ effDist x z g := by
      rw [heff]; exact hlo
    have hhi' : effDist x z g ≤ g.thigh_length + g.calf_length := by
      rw [heff]; exact hhi
    rw [fk_dist_eq g x z hL1' hL2' hd hlo' hhi', heff, sub_self, abs_zero]
    norm_num

/-- Witness for C1 at the concrete reachable target `(0, −0.20)` with the
default geometry (thigh 0.12, calf 0.10). -/
theorem solve_leg_ik_reconstructs_target_witness :
    Real.sqrt
      (((fkAnkle {} (solve_leg_ikCore 0 (-(2/10)) {}).hip_pitch
          (solve_leg_ikCore 0 (-(2/10)) {}).knee).1 - 0)^2 +
       ((fkAnkle {} (solve_leg_ikCore 0 (-(2/10)) {}).hip_pitch
          (solve_leg_ikCore 0 (-(2/10)) {}).knee).2 - (-(2/10)))^2) ≤ 1/1000 := by
  have hsq : Real.sqrt ((0:ℝ)^2 + (-(2/10))^2) = 2/10 := by
    rw [show ((0:ℝ)^2 + (-(2/10))^2) = (2/10)^2 by norm_num]
    exact Real.sqrt_sq (by norm_num)
  refine solve_leg_ik_reconstructs_target {} 0 (-(2/10)) _ ?_ ?_ ?_ ?_ rfl
  · show (1:ℝ)/100 ≤ 12/100
    norm_num
  · show (1:ℝ)/100 ≤ 1/10
    norm_num
  · show |(12:ℝ)/100 - 1/10| ≤ Real.sqrt ((0:ℝ)^2 + (-(2/10))^2)
    rw [hsq, abs_of_nonneg (by norm_num : (0:ℝ) ≤ 12/100 - 1/10)]
    norm_num
  · show Real.sqrt ((0:ℝ)^2 + (-(2/10))^2) ≤ 12/100 + 1/10
    rw [hsq]
    norm_num

/-- C4: for targets beyond `L1+L2` the solver silently computes with the
distance clamped to `L1+L2 − 1e-6`: it still returns a solution, its knee
angle equals the knee angle of the clamped target on the same ray, and that
knee is near-zero flexion (its cosine is within 1e-3 of 1, the angle lying
in [0°, 180°]). -/
theorem solve_leg_ik_clamps_long_targets (g : LegGeometry) (x z : ℝ)
    (hL1 : 1/100 ≤ g.thigh_length) (hL2 : 1/100 ≤ g.calf_length)
    (hfar : g.thigh_length + g.calf_length < Real.sqrt (x^2 + z^2)) :
    effDist x z g = g.thigh_length + g.calf_length - 1/1000000 ∧
    solve_leg_ik x z g = some (solve_leg_ikCore x z g) ∧
    (solve_leg_ikCore x z g).knee =
      (solve_leg_ikCore
        ((g.thigh_length + g.calf_length - 1/1000000) / Real.sqrt (x^2 + z^2) * x)
        ((g.thigh_length + g.calf_length - 1/1000000) / Real.sqrt (x^2 + z^2) * z)
        g).knee ∧
    Real.cos (deg2rad (solve_leg_ikCore x z g).knee) ≥ 1 - 1/1000 ∧
    0 ≤ (solve_leg_ikCore x z g).knee ∧ (solve_leg_ikCore x z g).knee ≤ 180 := by
  have hL1' : (0:ℝ) < g.thigh_length := lt_of_lt_of_le (by norm_num) hL1
  have hL2' : (0:ℝ) < g.calf_length := lt_of_lt_of_le (by norm_num) hL2
  have hmle : |g.thigh_length - g.calf_length| + 1/1000000 ≤
      g.thigh_length + g.calf_length - 1/1000000 := by
    rcases abs_cases (g.thigh_length - g.calf_length) with ⟨he, _⟩ | ⟨he, _⟩ <;>
      rw [he] <;> linarith
  have habs0 : (0:ℝ) ≤ |g.thigh_length - g.calf_length| := abs_nonneg _
  have hd0pos : (0:ℝ) < Real.sqrt (x^2 + z^2) := by linarith
  have heff : effDist x z g = g.thigh_length + g.calf_length - 1/1000000 := by
    simp only [effDist]
    rw [if_pos hfar, if_neg (not_lt.mpr hmle)]
  have hdpos : (0:ℝ) < g.thigh_length + g.calf_length - 1/1000000 := by linarith
  have hdlo : |g.thigh_length - g.calf_length| ≤
      g.thigh_length + g.calf_length - 1/1000000 := by linarith
  have hdhi : g.thigh_length + g.calf_length - 1/1000000 ≤
      g.thigh_length + g.calf_length := by linarith
  refine ⟨heff, rfl, ?_, ?_, ?_, ?_⟩
  · -- knee equals the knee of the clamped target
    have hknn : (0:ℝ) ≤ (g.thigh_length + g.calf_length - 1/1000000) /
        Real.sqrt (x^2 + z^2) := div_nonneg (by linarith) (Real.sqrt_nonneg _)
    have hscale : Real.sqrt
        (((g.thigh_length + g.calf_length - 1/1000000) / Real.sqrt (x^2 + z^2) * x)^2 +
         ((g.thigh_length + g.calf_length - 1/1000000) / Real.sqrt (x^2 + z^2) * z)^2) =
        (g.thigh_length + g.calf_length - 1/1000000) / Real.sqrt (x^2 + z^2) *
          Real.sqrt (x^2 + z^2) := by
      rw [show ((g.thigh_length + g.calf_length - 1/1000000) / Real.sqrt (x^2 + z^2) * x)^2 +
          ((g.thigh_length + g.calf_length - 1/1000000) / Real.sqrt (x^2 + z^2) * z)^2 =
          ((g.thigh_length + g.calf_length - 1/1000000) / Real.sqrt (x^2 + z^2))^2 *
            (x^2 + z^2) by ring]
      rw [Real.sqrt_mul (sq_nonneg _), Real.sqrt_sq hknn]
    have hkd0 : (g.thigh_length + g.calf_length - 1/1000000) / Real.sqrt (x^2 + z^2) *
        Real.sqrt (x^2 + z^2) = g.thigh_length + g.calf_length - 1/1000000 :=
      div_mul_cancel₀ _ (ne_of_gt hd0pos)
    have heff2 : effDist
        ((g.thigh_length + g.calf_length - 1/1000000) / Real.sqrt (x^2 + z^2) * x)
        ((g.thigh_length + g.calf_length - 1/1000000) / Real.sqrt (x^2 + z^2) * z) g =
        g.thigh_length + g.calf_length - 1/1000000 := by
      have hinner : ¬ (g.thigh_length + g.calf_length <
          g.thigh_length + g.calf_length - 1/1000000) := by linarith
      simp only [effDist]
      rw [hscale, hkd0, if_neg hinner, if_neg (not_lt.mpr hmle)]
    show rad2deg (kneeRad (effDist x z g) g) = rad2deg (kneeRad (effDist
        ((g.thigh_length + g.calf_length - 1/1000000) / Real.sqrt (x^2 + z^2) * x)
        ((g.thigh_length + g.calf_length - 1/1000000) / Real.sqrt (x^2 + z^2) * z) g) g)
    rw [heff, heff2]
  · -- near-zero flexion: cos of the knee is within 1e-3 of 1
    obtain ⟨⟨hw1, hw2⟩, _, _⟩ := cos_bounds g.thigh_length g.calf_length
      (g.thigh_length + g.calf_length - 1/1000000) hL1' hL2' hdpos hdlo hdhi
    show Real.cos (deg2rad (rad2deg (kneeRad (effDist x z g) g))) ≥ 1 - 1/1000
    rw [deg2rad_rad2deg, heff, kneeRad, npClip_eq_self hw1 hw2, Real.cos_pi_sub,
      Real.cos_arccos hw1 hw2]
    rw [ge_iff_le, neg_div', le_div_iff₀ (by positivity :
      (0:ℝ) < 2 * g.thigh_length * g.calf_length)]
    nlinarith [mul_nonneg (by linarith : (0:ℝ) ≤ g.thigh_length - 1/100) hL2'.le,
      mul_nonneg (by linarith : (0:ℝ) ≤ g.calf_length - 1/100) hL1'.le]
  · show 0 ≤ rad2deg (kneeRad (effDist x z g) g)
    rw [rad2deg, kneeRad]
    have h1 : Real.arccos (npClip ((g.thigh_length^2 + g.calf_length^2 -
        (effDist x z g)^2) / (2 * g.thigh_length * g.calf_length)) (-1) 1) ≤ Real.pi :=
      Real.arccos_le_pi _
    have : (0:ℝ) ≤ Real.pi - Real.arccos (npClip ((g.thigh_length^2 + g.calf_length^2 -
        (effDist x z g)^2) / (2 * g.thigh_length * g.calf_length)) (-1) 1) := by linarith
    positivity
  · show rad2deg (kneeRad (effDist x z g) g) ≤ 180
    rw [rad2deg, kneeRad, div_le_iff₀ Real.pi_pos]
    have h1 : 0 ≤ Real.arccos (npClip ((g.thigh_length^2 + g.calf_length^2 -
        (effDist x z g)^2) / (2 * g.thigh_length * g.calf_length)) (-1) 1) :=
      Real.arccos_nonneg _
    nlinarith [Real.pi_pos]

/-- Witness for C4 at the unreachable target `(0, −0.30)` with the default
geometry: the effective distance clamps to `0.22 − 1e-6` and the returned
knee is near-zero flexion. -/
theorem solve_leg_ik_clamps_long_targets_witness :
    effDist 0 (-(3/10)) {} = 12/100 + 1/10 - 1/1000000 ∧
    Real.cos (deg2rad (solve_leg_ikCore 0 (-(3/10)) {}).knee) ≥ 1 - 1/1000 := by
  have hsq : Real.sqrt ((0:ℝ)^2 + (-(3/10))^2) = 3/10 := by
    rw [show ((0:ℝ)^2 + (-(3/10))^2) = (3/10)^2 by norm_num]
    exact Real.sqrt_sq (by norm_num)
  have h := solve_leg_ik_clamps_long_targets {} 0 (-(3/10)) ?_ ?_ ?_
  · exact ⟨h.1, h.2.2.2.1⟩
  · show (1:ℝ)/100 ≤ 12/100
    norm_num
  · show (1:ℝ)/100 ≤ 1/10
    norm_num
  · show (12:ℝ)/100 + 1/10 < Real.sqrt ((0:ℝ)^2 + (-(3/10))^2)
    rw [hsq]
    norm_num

end Ethan
